import Mathlib

/-!
Verification of the game-catalogue generation pipeline.

Shallow embedding of the core logic of the repository:
token lifecycle management (token-manager), platform normalization
(csv-parser), fuzzy name matching and batch orchestration
(template-generator), and relational metadata resolution (igdb-client).
Network requests, the filesystem and `Math.random()` are modelled as
explicit inputs; JavaScript numbers occurring in similarity scores are
modelled as rationals; epoch-millisecond timestamps as integers.
-/

/-- Outcome of one external operation (an HTTP request or a file write):
either a value, or a raised exception carrying a message. -/
inductive FetchResult (α : Type) where
  | ok (val : α)
  | thrown (msg : String)
deriving DecidableEq

/-- Sequencing of fallible operations: a raised exception propagates. -/
def FetchResult.bind {α β : Type} : FetchResult α → (α → FetchResult β) → FetchResult β
  | .thrown m, _ => .thrown m
  | .ok a, f => f a

/- ----------------------------------------------------------------
String primitives.  The JS string methods used by the source
(`toLowerCase`, `trim`, `includes`, `split(/\s+/)`) are embedded as
structurally recursive functions on the character list of a `String`,
so that every concrete instance evaluates inside the kernel.
---------------------------------------------------------------- -/

/-- JS `toLowerCase()` (ASCII range, which covers all table keys and
comparisons in the source). -/
def strLower (s : String) : String := ⟨s.data.map Char.toLower⟩

/-- JS `trim()`: strip leading and trailing whitespace. -/
def strTrim (s : String) : String :=
  ⟨((s.data.dropWhile Char.isWhitespace).reverse.dropWhile Char.isWhitespace).reverse⟩

/-- JS `a.includes(b)`: `b` occurs as a contiguous substring of `a`
(every string includes the empty string). -/
def containsSub (s t : String) : Bool :=
  (List.range (s.data.length + 1)).any (fun i => t.data.isPrefixOf (s.data.drop i))

/-- JS `s.split(/\s+/)` on an already trimmed string: maximal runs of
non-whitespace characters.  (Splitting at every whitespace character and
discarding the empty pieces produced by adjacent separators.) -/
def splitWords (s : String) : List String :=
  ((s.data.splitOnP Char.isWhitespace).filter (fun w => w ≠ [])).map (fun w => ⟨w⟩)

/- ----------------------------------------------------------------
Token manager (src/src/auth/token-manager.ts)
---------------------------------------------------------------- -/

/-- Response of the OAuth2 token endpoint (`TwitchTokenResponse`):
`expires_in` is in seconds. -/
structure TwitchTokenResponse where
  access_token : String
  expires_in : ℤ
  token_type : String
deriving DecidableEq

/-- Persisted credential (`TokenData`): `expires_at` is epoch milliseconds. -/
structure TokenData where
  access_token : String
  expires_at : ℤ
  token_type : String
deriving DecidableEq

/-- State of the persisted `.token.json` file: absent, unreadable or
unparseable (`JSON.parse` throws), or a parsed credential record. -/
inductive StoredTokenFile where
  | absent
  | unparseable
  | stored (td : TokenData)
deriving DecidableEq

/-- Environment configuration read by `requestAccessToken`.  A variable is
either unset or set to a string (the empty string is falsy in JS). -/
structure AuthEnv where
  clientId : Option String
  clientSecret : Option String
  grantType : Option String
deriving DecidableEq

/-- JS truthiness of an environment variable: set and nonempty. -/
def envPresent (o : Option String) : Bool :=
  match o with
  | none => false
  | some s => !s.isEmpty

/-- JS `o || d`: the default replaces an unset or empty variable. -/
def envOrDefault (o : Option String) (d : String) : String :=
  match o with
  | none => d
  | some s => if s.isEmpty then d else s

/-- Behaviour of the identity provider for one exchange attempt. -/
inductive ExchangeResult where
  | success (resp : TwitchTokenResponse)
  | httpFailure (status : ℕ) (statusText : String)
deriving DecidableEq

/-- Observable side effects of the token manager. -/
inductive AuthEvent where
  | netExchange (grantType : String)
  | persist (td : TokenData)
deriving DecidableEq

/-- `TokenManager.requestAccessToken`: fails before any network call when
client id or secret is missing; otherwise performs exactly one POST to the
token endpoint and either returns the response or rethrows a
`Token request failed` error.  Returns the result together with the trace
of performed effects. -/
def requestAccessToken (env : AuthEnv) (net : ExchangeResult) :
    Except String TwitchTokenResponse × List AuthEvent :=
  if envPresent env.clientId && envPresent env.clientSecret then
    let grantType := envOrDefault env.grantType "client_credentials"
    match net with
    | .success resp => (.ok resp, [.netExchange grantType])
    | .httpFailure status statusText =>
        (.error ("Token request failed: " ++ toString status ++ " " ++ statusText),
         [.netExchange grantType])
  else
    (.error "TWITCH_CLIENT_ID and TWITCH_CLIENT_SECRET must be set in .env file", [])

/-- `TokenManager.saveTokenToFile`: the credential written to disk,
with `expires_at = Date.now() + expires_in * 1000`. -/
def saveTokenToFile (now : ℤ) (resp : TwitchTokenResponse) : TokenData :=
  { access_token := resp.access_token
    expires_at := now + resp.expires_in * 1000
    token_type := resp.token_type }

/-- The 5-minute validity buffer, in milliseconds. -/
def bufferTime : ℤ := 5 * 60 * 1000

/-- `TokenManager.loadTokenFromFile`: returns the stored credential only
when the file exists, parses, and `now < expires_at - bufferTime`;
returns nothing in every other case (read and parse errors are caught). -/
def loadTokenFromFile (now : ℤ) (file : StoredTokenFile) : Option TokenData :=
  match file with
  | .absent => none
  | .unparseable => none
  | .stored td => if now < td.expires_at - bufferTime then some td else none

/-- `TokenManager.getValidToken`: returns the cached access token when the
stored credential is valid (no effects); otherwise performs the exchange,
persists the fresh credential and returns its access token. -/
def getValidToken (env : AuthEnv) (file : StoredTokenFile) (net : ExchangeResult)
    (now : ℤ) : Except String String × List AuthEvent :=
  match loadTokenFromFile now file with
  | some existingToken => (.ok existingToken.access_token, [])
  | none =>
    match requestAccessToken env net with
    | (.ok newToken, evs) =>
        (.ok newToken.access_token, evs ++ [.persist (saveTokenToFile now newToken)])
    | (.error e, evs) => (.error e, evs)

/-- `TokenManager.refreshToken`: unconditional exchange plus persist. -/
def refreshToken (env : AuthEnv) (net : ExchangeResult) (now : ℤ) :
    Except String String × List AuthEvent :=
  match requestAccessToken env net with
  | (.ok newToken, evs) =>
      (.ok newToken.access_token, evs ++ [.persist (saveTokenToFile now newToken)])
  | (.error e, evs) => (.error e, evs)

/- ----------------------------------------------------------------
Platform normalization (src/src/utils/csv-parser.ts)
---------------------------------------------------------------- -/

/-- The `platformMap` object lookup of `CSVParser.normalizePlatform`. -/
def platformLookup (k : String) : Option String :=
  if k = "pc" then some "PC"
  else if k = "ps5" then some "PlayStation 5"
  else if k = "ps4" then some "PlayStation 4"
  else if k = "ps3" then some "PlayStation 3"
  else if k = "psp" then some "PlayStation Portable"
  else if k = "xbox 360" then some "Xbox 360"
  else if k = "xbok 360" then some "Xbox 360"
  else if k = "nintendo switch" then some "Nintendo Switch"
  else if k = "vr" then some "VR"
  else if k = "tabletop" then some "Tabletop"
  else if k = "mobile" then some "Mobile"
  else none

/-- `CSVParser.normalizePlatform`: canonical name from the lowercase-trimmed
lookup table, or the input unchanged when it is not in the table. -/
def normalizePlatform (platform : String) : String :=
  match platformLookup (strTrim (strLower platform)) with
  | some c => c
  | none => platform

set_option maxHeartbeats 1600000 in
/-- Every canonical output of the lookup table is a fixed point of
normalization. -/
theorem normalizePlatform_fix_of_lookup (k c : String)
    (h : platformLookup k = some c) : normalizePlatform c = c := by
  unfold platformLookup at h
  split_ifs at h <;> simp only [Option.some.injEq] at h <;> subst h <;> decide

/-- C10: platform name normalization is idempotent: normalizing an already
normalized string changes nothing, because every canonical output either
maps to itself under the lowercase lookup or falls outside the table. -/
theorem normalizePlatform_idempotent (s : String) :
    normalizePlatform (normalizePlatform s) = normalizePlatform s := by
  cases h : platformLookup (strTrim (strLower s)) with
  | none =>
      have h1 : normalizePlatform s = s := by unfold normalizePlatform; rw [h]
      rw [h1]; exact h1
  | some c =>
      have h1 : normalizePlatform s = c := by unfold normalizePlatform; rw [h]
      rw [h1]
      exact normalizePlatform_fix_of_lookup _ _ h

/- ----------------------------------------------------------------
IGDB records (src/types/igdb usage) and the match engine
(TemplateGenerator.findBestGameMatch / calculateNameSimilarity)
---------------------------------------------------------------- -/

/-- An IGDB game record as used by the source: identifier, name, optional
descriptive fields and optional foreign-key id lists (an absent array is
`none`, matching a missing JSON field). -/
structure IGDBGame where
  id : ℕ
  name : String
  summary : Option String := none
  storyline : Option String := none
  first_release_date : Option ℤ := none
  genres : Option (List ℕ) := none
  platforms : Option (List ℕ) := none
  game_modes : Option (List ℕ) := none
  themes : Option (List ℕ) := none
  player_perspectives : Option (List ℕ) := none
  game_engines : Option (List ℕ) := none
  involved_companies : Option (List ℕ) := none
deriving DecidableEq

/-- `TemplateGenerator.calculateNameSimilarity`: 1 on equal lowercased
trimmed strings, 4/5 on substring containment in either direction, else
the number of words of the first string occurring in the second divided
by the number of distinct words of both. -/
def calculateNameSimilarity (str1 str2 : String) : ℚ :=
  let s1 := strTrim (strLower str1)
  let s2 := strTrim (strLower str2)
  if s1 = s2 then 1
  else if containsSub s1 s2 || containsSub s2 s1 then 4/5
  else
    let words1 := splitWords s1
    let words2 := splitWords s2
    let allWords := (words1 ++ words2).dedup
    let commonWords := words1.filter (fun word => words2.contains word)
    (commonWords.length : ℚ) / (allWords.length : ℚ)

/-- The exact-match predicate of `findBestGameMatch`. -/
def exactNameMatch (searchLower : String) (game : IGDBGame) : Bool :=
  strTrim (strLower game.name) == searchLower

/-- Comparator of the score sort in `findBestGameMatch`: the JS comparator
`(a, b) => b.score - a.score` sorts by descending score; JS array sort is
stable, so equal scores keep their original relative order, matching a
stable merge sort with this relation. -/
def scoreLe (x y : IGDBGame × ℚ) : Bool := y.2 ≤ x.2

/-- `TemplateGenerator.findBestGameMatch`: first exact lowercase-trimmed
name match if any; otherwise the top-scoring candidate when its score
strictly exceeds 0.6; otherwise the first candidate in service order
(`games[0] || null`). -/
def findBestGameMatch (searchName : String) (games : List IGDBGame) : Option IGDBGame :=
  let searchLower := strTrim (strLower searchName)
  match games.find? (exactNameMatch searchLower) with
  | some m => some m
  | none =>
    let scoredMatches :=
      (games.map (fun game => (game, calculateNameSimilarity searchName game.name))).mergeSort
        scoreLe
    match scoredMatches with
    | top :: _ => if (3 : ℚ)/5 < top.2 then some top.1 else games.head?
    | [] => games.head?

/-- The head of the descending score sort belongs to the list and carries
a maximal score. -/
theorem mergeSort_head_mem_and_max {l : List (IGDBGame × ℚ)} {top : IGDBGame × ℚ}
    {rest : List (IGDBGame × ℚ)} (h : l.mergeSort scoreLe = top :: rest) :
    top ∈ l ∧ ∀ x ∈ l, x.2 ≤ top.2 := by
  have hperm : (l.mergeSort scoreLe).Perm l := List.mergeSort_perm l scoreLe
  have htrans : ∀ a b c : IGDBGame × ℚ,
      scoreLe a b = true → scoreLe b c = true → scoreLe a c = true := by
    intro a b c hab hbc
    have h1 := of_decide_eq_true hab
    have h2 := of_decide_eq_true hbc
    exact decide_eq_true (le_trans h2 h1)
  have htotal : ∀ a b : IGDBGame × ℚ, (scoreLe a b || scoreLe b a) = true := by
    intro a b
    simp only [scoreLe, Bool.or_eq_true, decide_eq_true_eq]
    exact le_total b.2 a.2
  have hsorted := List.sorted_mergeSort htrans htotal l
  rw [h] at hperm hsorted
  constructor
  · exact hperm.subset (List.mem_cons_self _ _)
  · intro x hx
    have hx2 : x ∈ top :: rest := hperm.mem_iff.mpr hx
    rcases List.mem_cons.mp hx2 with h1 | h1
    · subst h1; exact le_refl _
    · have hp := (List.pairwise_cons.mp hsorted).1 x h1
      exact of_decide_eq_true hp

/-- C2: when some candidate's lowercased trimmed name equals the lowercased
trimmed search name, `findBestGameMatch` returns the first such candidate,
before any similarity score is consulted. -/
theorem findBestGameMatch_exact_wins (searchName : String) (games : List IGDBGame)
    (h : ∃ g ∈ games, strTrim (strLower g.name) = strTrim (strLower searchName)) :
    ∃ g, findBestGameMatch searchName games = some g ∧
      strTrim (strLower g.name) = strTrim (strLower searchName) ∧
      games.find? (exactNameMatch (strTrim (strLower searchName))) = some g := by
  obtain ⟨g0, hg0, hname⟩ := h
  have hsome : (games.find? (exactNameMatch (strTrim (strLower searchName)))).isSome := by
    rw [List.find?_isSome]
    refine ⟨g0, hg0, ?_⟩
    simp [exactNameMatch, hname]
  obtain ⟨g, hg⟩ := Option.isSome_iff_exists.mp hsome
  refine ⟨g, ?_, ?_, hg⟩
  · simp only [findBestGameMatch]
    rw [hg]
  · have hpg := List.find?_some hg
    simpa [exactNameMatch] using hpg

/-- C3: with no exact match, an empty candidate list yields nothing; when
some candidate scores strictly above 3/5 the returned candidate is one of
maximal score (so a top score of exactly 3/5 is never selected by the
threshold rule); when every score is at most 3/5 the first candidate in
the original service order is returned. -/
theorem findBestGameMatch_threshold_and_fallback (searchName : String)
    (games : List IGDBGame)
    (hnoexact : games.find? (exactNameMatch (strTrim (strLower searchName))) = none) :
    (findBestGameMatch searchName [] = (none : Option IGDBGame)) ∧
    ((∃ g ∈ games, (3 : ℚ)/5 < calculateNameSimilarity searchName g.name) →
      ∃ t ∈ games, findBestGameMatch searchName games = some t ∧
        (3 : ℚ)/5 < calculateNameSimilarity searchName t.name ∧
        ∀ g ∈ games, calculateNameSimilarity searchName g.name ≤
          calculateNameSimilarity searchName t.name) ∧
    ((∀ g ∈ games, calculateNameSimilarity searchName g.name ≤ (3 : ℚ)/5) →
      findBestGameMatch searchName games = games.head?) := by
  refine ⟨?_, ?_, ?_⟩
  · simp [findBestGameMatch, List.mergeSort_nil]
  · rintro ⟨g, hg, hgt⟩
    cases hms : (games.map
        (fun game => (game, calculateNameSimilarity searchName game.name))).mergeSort
        scoreLe with
    | nil =>
        exfalso
        have hlen := (List.mergeSort_perm (games.map
          (fun game => (game, calculateNameSimilarity searchName game.name))) scoreLe).length_eq
        rw [hms] at hlen
        simp only [List.length_nil, List.length_map] at hlen
        have hnil : games = [] := List.length_eq_zero.mp hlen.symm
        subst hnil
        exact List.not_mem_nil g hg
    | cons top rest =>
        obtain ⟨htm, hmax⟩ := mergeSort_head_mem_and_max hms
        obtain ⟨t, ht, hft⟩ := List.mem_map.mp htm
        have hft2 : (t, calculateNameSimilarity searchName t.name) = top := hft
        have hgt_top : (3 : ℚ)/5 < top.2 := by
          have hm := hmax (g, calculateNameSimilarity searchName g.name)
            (List.mem_map_of_mem _ hg)
          exact lt_of_lt_of_le hgt (by simpa using hm)
        refine ⟨t, ht, ?_, ?_, ?_⟩
        · simp only [findBestGameMatch, hnoexact, hms]
          rw [if_pos hgt_top, ← hft2]
        · have : top.2 = calculateNameSimilarity searchName t.name := by rw [← hft2]
          rw [← this]; exact hgt_top
        · intro g2 hg2
          have hm := hmax (g2, calculateNameSimilarity searchName g2.name)
            (List.mem_map_of_mem _ hg2)
          have htop2 : top.2 = calculateNameSimilarity searchName t.name := by rw [← hft2]
          rw [← htop2]
          simpa using hm
  · intro hall
    cases hgames : games with
    | nil =>
        subst hgames
        simp [findBestGameMatch, List.mergeSort_nil]
    | cons a as =>
        subst hgames
        cases hms : ((a :: as).map
            (fun game => (game, calculateNameSimilarity searchName game.name))).mergeSort
            scoreLe with
        | nil =>
            exfalso
            have hlen := (List.mergeSort_perm ((a :: as).map
              (fun game => (game, calculateNameSimilarity searchName game.name))) scoreLe).length_eq
            rw [hms] at hlen
            simp at hlen
        | cons top rest =>
            obtain ⟨htm, hmax⟩ := mergeSort_head_mem_and_max hms
            obtain ⟨t, ht, hft⟩ := List.mem_map.mp htm
            have hft2 : (t, calculateNameSimilarity searchName t.name) = top := hft
            have htop2 : top.2 = calculateNameSimilarity searchName t.name := by rw [← hft2]
            have hle : ¬ ((3 : ℚ)/5 < top.2) := by
              rw [htop2]
              exact not_lt.mpr (hall t ht)
            simp only [findBestGameMatch, hnoexact, hms]
            rw [if_neg hle]

/-- Counting the members of a duplicate-free list that occur in a second
list is counting the intersection of the two sets of words. -/
theorem filter_contains_card (u v : List String) (hu : u.Nodup) :
    (u.filter (fun w => v.contains w)).length = (u.toFinset ∩ v.toFinset).card := by
  rw [← List.toFinset_card_of_nodup (hu.filter _)]
  congr 1
  ext x
  simp [List.mem_filter]

/-- The number of distinct words of a concatenation does not depend on the
order of the two parts. -/
theorem dedup_append_length_comm (u v : List String) :
    ((u ++ v).dedup).length = ((v ++ u).dedup).length := by
  rw [← List.card_toFinset, ← List.card_toFinset, List.toFinset_append,
    List.toFinset_append, Finset.union_comm]

/-- C7 amended: the similarity score is symmetric whenever neither input's
lowercased trimmed word list contains a repeated word; the equality and
containment branches are symmetric unconditionally, and with duplicate-free
word lists the common-word count is the size of the word-set intersection. -/
theorem calculateNameSimilarity_symm_of_nodup (a b : String)
    (ha : (splitWords (strTrim (strLower a))).Nodup)
    (hb : (splitWords (strTrim (strLower b))).Nodup) :
    calculateNameSimilarity a b = calculateNameSimilarity b a := by
  simp only [calculateNameSimilarity]
  by_cases h12 : strTrim (strLower a) = strTrim (strLower b)
  · rw [if_pos h12, if_pos h12.symm]
  · rw [if_neg h12,
      if_neg (show ¬ (strTrim (strLower b) = strTrim (strLower a)) from fun h => h12 h.symm)]
    by_cases hc : (containsSub (strTrim (strLower a)) (strTrim (strLower b)) ||
        containsSub (strTrim (strLower b)) (strTrim (strLower a))) = true
    · rw [if_pos hc,
        if_pos (show (containsSub (strTrim (strLower b)) (strTrim (strLower a)) ||
            containsSub (strTrim (strLower a)) (strTrim (strLower b))) = true from by
          rw [Bool.or_comm]; exact hc)]
    · rw [if_neg hc,
        if_neg (show ¬ (containsSub (strTrim (strLower b)) (strTrim (strLower a)) ||
            containsSub (strTrim (strLower a)) (strTrim (strLower b))) = true from by
          rw [Bool.or_comm]; exact hc)]
      have hnum : ((splitWords (strTrim (strLower a))).filter
            (fun word => (splitWords (strTrim (strLower b))).contains word)).length =
          ((splitWords (strTrim (strLower b))).filter
            (fun word => (splitWords (strTrim (strLower a))).contains word)).length := by
        rw [filter_contains_card _ _ ha, filter_contains_card _ _ hb, Finset.inter_comm]
      have hden := dedup_append_length_comm (splitWords (strTrim (strLower a)))
        (splitWords (strTrim (strLower b)))
      rw [hnum, hden]

/-- C7 counterexample: the score is not symmetric in general, because the
common words are counted with multiplicity from the first argument. -/
theorem calculateNameSimilarity_not_symm :
    ¬ (calculateNameSimilarity "a a" "b a" = calculateNameSimilarity "b a" "a a") := by
  have h1 : calculateNameSimilarity "a a" "b a" = ((2 : ℕ) : ℚ) / ((2 : ℕ) : ℚ) := rfl
  have h2 : calculateNameSimilarity "b a" "a a" = ((1 : ℕ) : ℚ) / ((2 : ℕ) : ℚ) := rfl
  intro heq
  rw [h1, h2] at heq
  norm_num at heq

/-- C7 witness: symmetry at a concrete pair of duplicate-free names. -/
theorem calculateNameSimilarity_symm_of_nodup_witness :
    calculateNameSimilarity "hello world" "world peace" =
      calculateNameSimilarity "world peace" "hello world" :=
  calculateNameSimilarity_symm_of_nodup "hello world" "world peace" (by decide) (by decide)

/-- C8 amended: the similarity score is always nonnegative, and it is at
most 1 whenever the first argument's lowercased trimmed word list contains
no repeated word. -/
theorem calculateNameSimilarity_range (a b : String) :
    0 ≤ calculateNameSimilarity a b ∧
    ((splitWords (strTrim (strLower a))).Nodup → calculateNameSimilarity a b ≤ 1) := by
  simp only [calculateNameSimilarity]
  split_ifs with h1 h2
  · exact ⟨by norm_num, fun _ => le_refl 1⟩
  · refine ⟨by norm_num, fun _ => by norm_num⟩
  · constructor
    · exact div_nonneg (Nat.cast_nonneg _) (Nat.cast_nonneg _)
    · intro ha
      have hnat : ((splitWords (strTrim (strLower a))).filter
            (fun word => (splitWords (strTrim (strLower b))).contains word)).length ≤
          (((splitWords (strTrim (strLower a))) ++
            (splitWords (strTrim (strLower b)))).dedup).length := by
        rw [filter_contains_card _ _ ha, ← List.card_toFinset, List.toFinset_append]
        exact Finset.card_le_card
          (subset_trans Finset.inter_subset_left Finset.subset_union_left)
      exact div_le_one_of_le₀ (by exact_mod_cast hnat) (Nat.cast_nonneg _)

/-- C8 counterexample: with a repeated word in the first argument the score
exceeds 1: similarity of two one-vs-two-word names evaluates to 3/2. -/
theorem calculateNameSimilarity_above_one :
    ¬ (calculateNameSimilarity "a a a" "a b" ≤ 1) := by
  have h1 : calculateNameSimilarity "a a a" "a b" = ((3 : ℕ) : ℚ) / ((2 : ℕ) : ℚ) := rfl
  rw [h1]; norm_num

/-- C8 witness: the bounds at a concrete pair of names. -/
theorem calculateNameSimilarity_range_witness :
    0 ≤ calculateNameSimilarity "alpha beta" "gamma" ∧
      calculateNameSimilarity "alpha beta" "gamma" ≤ 1 :=
  ⟨(calculateNameSimilarity_range "alpha beta" "gamma").1,
   (calculateNameSimilarity_range "alpha beta" "gamma").2 (by decide)⟩

/-- Candidate used by the exact-match witness: the name matches the search
text up to case and surrounding whitespace. -/
def wGameExact : IGDBGame := { id := 10, name := "  Chrono Trigger " }

/-- Distractor candidate for the exact-match witness. -/
def wGameOther : IGDBGame := { id := 11, name := "Chrono Cross" }

/-- C2 witness: the exact match is returned even though it is listed after
another candidate. -/
theorem findBestGameMatch_exact_wins_witness :
    findBestGameMatch "chrono trigger" [wGameOther, wGameExact] = some wGameExact := by
  obtain ⟨g, hres, hname, hfind⟩ := findBestGameMatch_exact_wins "chrono trigger"
    [wGameOther, wGameExact] ⟨wGameExact, by decide, by decide⟩
  have hfind0 : [wGameOther, wGameExact].find?
      (exactNameMatch (strTrim (strLower "chrono trigger"))) = some wGameExact := by decide
  have hg : g = wGameExact := by
    have := hfind0.symm.trans hfind
    exact (Option.some.inj this).symm
  exact hg ▸ hres

/-- Low-scoring candidate used by the fallback witness. -/
def wGameLowA : IGDBGame := { id := 20, name := "foxtrot golf" }

/-- Second low-scoring candidate used by the fallback witness. -/
def wGameLowB : IGDBGame := { id := 21, name := "hotel india" }

/-- C3 witness: with no exact match and all scores at most 3/5, the first
candidate in service order is returned. -/
theorem findBestGameMatch_threshold_witness :
    findBestGameMatch "delta echo" [wGameLowA, wGameLowB] = some wGameLowA := by
  have h := findBestGameMatch_threshold_and_fallback "delta echo" [wGameLowA, wGameLowB]
    (by decide)
  have hall : ∀ g ∈ [wGameLowA, wGameLowB],
      calculateNameSimilarity "delta echo" g.name ≤ (3 : ℚ)/5 := by
    intro g hg
    rcases List.mem_cons.mp hg with h1 | h1
    · subst h1
      have he : calculateNameSimilarity "delta echo" wGameLowA.name =
          ((0 : ℕ) : ℚ) / ((4 : ℕ) : ℚ) := rfl
      rw [he]; norm_num
    · rcases List.mem_cons.mp h1 with h2 | h2
      · subst h2
        have he : calculateNameSimilarity "delta echo" wGameLowB.name =
            ((0 : ℕ) : ℚ) / ((4 : ℕ) : ℚ) := rfl
        rw [he]; norm_num
      · exact absurd h2 (List.not_mem_nil g)
  have hres := h.2.2 hall
  simpa using hres

/-- C1: a stored credential with `expires_at > now + 5min` is returned from
the cache with no network call and no persist; in every other file state
(absent, unparseable, or `expires_at <= now + 5min`) one exchange is
performed, one fresh credential is persisted, and its access token is
returned. -/
theorem getValidToken_cache_spec (env : AuthEnv) (file : StoredTokenFile)
    (net : ExchangeResult) (now : ℤ) :
    (∀ td, file = .stored td → now + bufferTime < td.expires_at →
      getValidToken env file net now = (.ok td.access_token, [])) ∧
    (∀ resp, net = .success resp →
      envPresent env.clientId = true → envPresent env.clientSecret = true →
      (file = .absent ∨ file = .unparseable ∨
        (∃ td, file = .stored td ∧ td.expires_at ≤ now + bufferTime)) →
      getValidToken env file net now =
        (.ok resp.access_token,
         [.netExchange (envOrDefault env.grantType "client_credentials"),
          .persist (saveTokenToFile now resp)])) := by
  constructor
  · intro td hfile hvalid
    subst hfile
    have hload : loadTokenFromFile now (.stored td) = some td := by
      show (if now < td.expires_at - bufferTime then some td else none) = some td
      rw [if_pos (by unfold bufferTime at hvalid ⊢; omega)]
    simp only [getValidToken, hload]
  · intro resp hnet hid hsecret hstale
    subst hnet
    have hload : loadTokenFromFile now file = none := by
      rcases hstale with h | h | ⟨td, hf, hle⟩
      · subst h; rfl
      · subst h; rfl
      · subst hf
        show (if now < td.expires_at - bufferTime then some td else none) = none
        rw [if_neg (by unfold bufferTime at hle ⊢; omega)]
    simp only [getValidToken, hload, requestAccessToken, hid, hsecret, Bool.and_self,
      if_true]
    rfl

/-- Environment with both credentials set, used by the C1 witness. -/
def wAuthEnv : AuthEnv :=
  { clientId := some "client-id", clientSecret := some "client-secret", grantType := none }

/-- Stored credential used by the C1 witness, valid at time 0. -/
def wStoredToken : TokenData :=
  { access_token := "cached-token", expires_at := 1000000, token_type := "bearer" }

/-- Exchange response used by the C1 witness. -/
def wResp : TwitchTokenResponse :=
  { access_token := "fresh-token", expires_in := 3600, token_type := "bearer" }

/-- C1 witness: a valid cached credential is served with no effects, and an
absent credential file triggers exactly one exchange and one persist. -/
theorem getValidToken_cache_spec_witness :
    getValidToken wAuthEnv (.stored wStoredToken) (.success wResp) 0 =
      (.ok "cached-token", []) ∧
    getValidToken wAuthEnv .absent (.success wResp) 0 =
      (.ok "fresh-token",
       [.netExchange "client_credentials", .persist (saveTokenToFile 0 wResp)]) := by
  constructor
  · exact (getValidToken_cache_spec wAuthEnv (.stored wStoredToken) (.success wResp) 0).1
      wStoredToken rfl (by decide)
  · exact (getValidToken_cache_spec wAuthEnv .absent (.success wResp) 0).2
      wResp rfl rfl rfl (Or.inl rfl)

/- ----------------------------------------------------------------
Relational metadata resolution (IGDBClient, src/unnamed/part_001)
---------------------------------------------------------------- -/

/-- IGDB genre record (fields fetched by `getGenres`). -/
structure IGDBGenre where
  id : ℕ
  name : String
deriving DecidableEq

/-- IGDB platform record. -/
structure IGDBPlatform where
  id : ℕ
  name : String
deriving DecidableEq

/-- IGDB game mode record. -/
structure IGDBGameMode where
  id : ℕ
  name : String
deriving DecidableEq

/-- IGDB theme record. -/
structure IGDBTheme where
  id : ℕ
  name : String
deriving DecidableEq

/-- IGDB player perspective record. -/
structure IGDBPlayerPerspective where
  id : ℕ
  name : String
deriving DecidableEq

/-- IGDB game engine record. -/
structure IGDBGameEngine where
  id : ℕ
  name : String
deriving DecidableEq

/-- IGDB company record. -/
structure IGDBCompany where
  id : ℕ
  name : String
deriving DecidableEq

/-- IGDB involvement record joining a game and a company, with the
developer/publisher role flags. -/
structure IGDBInvolvedCompany where
  id : ℕ
  company : ℕ
  game : ℕ
  developer : Bool
  publisher : Bool
  porting : Bool
  supporting : Bool
deriving DecidableEq

/-- `ExpandedGameData`: the base game record together with every resolved
relation list. -/
structure ExpandedGameData where
  game : IGDBGame
  genres : List IGDBGenre
  platforms : List IGDBPlatform
  gameModes : List IGDBGameMode
  themes : List IGDBTheme
  playerPerspectives : List IGDBPlayerPerspective
  gameEngines : List IGDBGameEngine
  companies : List IGDBCompany
  involvedCompanies : List IGDBInvolvedCompany
deriving DecidableEq

/-- Behaviour of the external metadata service during one resolution: the
response (or raised transport error) of each endpoint, as a function of
the requested text or id list. -/
structure IGDBService where
  search : String → ℕ → FetchResult (List IGDBGame)
  games : List ℕ → FetchResult (List IGDBGame)
  genres : List ℕ → FetchResult (List IGDBGenre)
  platforms : List ℕ → FetchResult (List IGDBPlatform)
  gameModes : List ℕ → FetchResult (List IGDBGameMode)
  themes : List ℕ → FetchResult (List IGDBTheme)
  playerPerspectives : List ℕ → FetchResult (List IGDBPlayerPerspective)
  gameEngines : List ℕ → FetchResult (List IGDBGameEngine)
  companies : List ℕ → FetchResult (List IGDBCompany)
  involvedCompanies : List ℕ → FetchResult (List IGDBInvolvedCompany)

/-- `IGDBClient.getGames`: a `where id = (...)` query, no empty-list guard. -/
def getGames (svc : IGDBService) (gameIds : List ℕ) : FetchResult (List IGDBGame) :=
  svc.games gameIds

/-- `IGDBClient.getGenres`: empty id list short-circuits without a request. -/
def getGenres (svc : IGDBService) (genreIds : List ℕ) : FetchResult (List IGDBGenre) :=
  if genreIds = [] then .ok [] else svc.genres genreIds

/-- `IGDBClient.getPlatforms`. -/
def getPlatforms (svc : IGDBService) (platformIds : List ℕ) :
    FetchResult (List IGDBPlatform) :=
  if platformIds = [] then .ok [] else svc.platforms platformIds

/-- `IGDBClient.getGameModes`. -/
def getGameModes (svc : IGDBService) (gameModeIds : List ℕ) :
    FetchResult (List IGDBGameMode) :=
  if gameModeIds = [] then .ok [] else svc.gameModes gameModeIds

/-- `IGDBClient.getThemes`. -/
def getThemes (svc : IGDBService) (themeIds : List ℕ) : FetchResult (List IGDBTheme) :=
  if themeIds = [] then .ok [] else svc.themes themeIds

/-- `IGDBClient.getPlayerPerspectives`. -/
def getPlayerPerspectives (svc : IGDBService) (perspectiveIds : List ℕ) :
    FetchResult (List IGDBPlayerPerspective) :=
  if perspectiveIds = [] then .ok [] else svc.playerPerspectives perspectiveIds

/-- `IGDBClient.getGameEngines`. -/
def getGameEngines (svc : IGDBService) (engineIds : List ℕ) :
    FetchResult (List IGDBGameEngine) :=
  if engineIds = [] then .ok [] else svc.gameEngines engineIds

/-- `IGDBClient.getCompanies`. -/
def getCompanies (svc : IGDBService) (companyIds : List ℕ) :
    FetchResult (List IGDBCompany) :=
  if companyIds = [] then .ok [] else svc.companies companyIds

/-- `IGDBClient.getInvolvedCompanies`. -/
def getInvolvedCompanies (svc : IGDBService) (involvedCompanyIds : List ℕ) :
    FetchResult (List IGDBInvolvedCompany) :=
  if involvedCompanyIds = [] then .ok [] else svc.involvedCompanies involvedCompanyIds

/-- The eighth `Promise.all` component: when the base game carries an
`involved_companies` array (even an empty one), fetch the involvement
records and then the referenced companies; an absent array resolves to an
empty list without any request. -/
def companiesChain (svc : IGDBService) (game : IGDBGame) :
    FetchResult (List IGDBCompany) :=
  match game.involved_companies with
  | none => .ok []
  | some icIds =>
      (getInvolvedCompanies svc icIds).bind (fun involved =>
        getCompanies svc (involved.map (fun ic => ic.company)))

/-- The `try` body of `IGDBClient.getExpandedGameData`: fetch the base game
(`if (!games) return null` on an empty response), then resolve the seven
relation lists plus the companies chain (`Promise.all` rejects as soon as
any sub-fetch rejects, so a single raised sub-fetch makes the whole
aggregate raise; sequencing the components is observationally equal after
the enclosing catch) and assemble the record. -/
def getExpandedGameDataTry (svc : IGDBService) (gameId : ℕ) :
    FetchResult (Option ExpandedGameData) :=
  (getGames svc [gameId]).bind (fun games =>
  match games.head? with
  | none => .ok none
  | some game =>
    (getGenres svc (game.genres.getD [])).bind (fun genres =>
    (getPlatforms svc (game.platforms.getD [])).bind (fun platforms =>
    (getGameModes svc (game.game_modes.getD [])).bind (fun gameModes =>
    (getThemes svc (game.themes.getD [])).bind (fun themes =>
    (getPlayerPerspectives svc (game.player_perspectives.getD [])).bind
      (fun playerPerspectives =>
    (getGameEngines svc (game.game_engines.getD [])).bind (fun gameEngines =>
    (getInvolvedCompanies svc (game.involved_companies.getD [])).bind
      (fun involvedCompanies =>
    (companiesChain svc game).bind (fun companies =>
    .ok (some
      { game := game, genres := genres, platforms := platforms, gameModes := gameModes,
        themes := themes, playerPerspectives := playerPerspectives,
        gameEngines := gameEngines, companies := companies,
        involvedCompanies := involvedCompanies }))))))))))

/-- `IGDBClient.getExpandedGameData`: the catch block turns any raised
sub-fetch into a null result. -/
def getExpandedGameData (svc : IGDBService) (gameId : ℕ) : Option ExpandedGameData :=
  match getExpandedGameDataTry svc gameId with
  | .ok r => r
  | .thrown _ => none

/-- Inversion: a returned record is fully enriched, with every sub-fetch
having answered exactly the embedded lists. -/
theorem getExpandedGameData_some_inversion (svc : IGDBService) (gameId : ℕ)
    (d : ExpandedGameData) (h : getExpandedGameData svc gameId = some d) :
    ∃ rest, svc.games [gameId] = .ok (d.game :: rest) ∧
      getGenres svc (d.game.genres.getD []) = .ok d.genres ∧
      getPlatforms svc (d.game.platforms.getD []) = .ok d.platforms ∧
      getGameModes svc (d.game.game_modes.getD []) = .ok d.gameModes ∧
      getThemes svc (d.game.themes.getD []) = .ok d.themes ∧
      getPlayerPerspectives svc (d.game.player_perspectives.getD []) =
        .ok d.playerPerspectives ∧
      getGameEngines svc (d.game.game_engines.getD []) = .ok d.gameEngines ∧
      getInvolvedCompanies svc (d.game.involved_companies.getD []) =
        .ok d.involvedCompanies ∧
      companiesChain svc d.game = .ok d.companies := by
  unfold getExpandedGameData at h
  cases htry : getExpandedGameDataTry svc gameId with
  | thrown m => rw [htry] at h; exact absurd h (by simp)
  | ok r =>
    rw [htry] at h
    simp only [] at h
    subst h
    unfold getExpandedGameDataTry getGames at htry
    cases hg : svc.games [gameId] with
    | thrown m => rw [hg] at htry; simp [FetchResult.bind] at htry
    | ok games =>
      rw [hg] at htry
      simp only [FetchResult.bind] at htry
      cases games with
      | nil => simp at htry
      | cons g rest =>
        simp only [List.head?_cons] at htry
        cases h1 : getGenres svc (g.genres.getD []) with
        | thrown m => rw [h1] at htry; simp [FetchResult.bind] at htry
        | ok genres =>
          rw [h1] at htry
          simp only [FetchResult.bind] at htry
          cases h2 : getPlatforms svc (g.platforms.getD []) with
          | thrown m => rw [h2] at htry; simp [FetchResult.bind] at htry
          | ok platforms =>
            rw [h2] at htry
            simp only [FetchResult.bind] at htry
            cases h3 : getGameModes svc (g.game_modes.getD []) with
            | thrown m => rw [h3] at htry; simp [FetchResult.bind] at htry
            | ok gameModes =>
              rw [h3] at htry
              simp only [FetchResult.bind] at htry
              cases h4 : getThemes svc (g.themes.getD []) with
              | thrown m => rw [h4] at htry; simp [FetchResult.bind] at htry
              | ok themes =>
                rw [h4] at htry
                simp only [FetchResult.bind] at htry
                cases h5 : getPlayerPerspectives svc (g.player_perspectives.getD []) with
                | thrown m => rw [h5] at htry; simp [FetchResult.bind] at htry
                | ok playerPerspectives =>
                  rw [h5] at htry
                  simp only [FetchResult.bind] at htry
                  cases h6 : getGameEngines svc (g.game_engines.getD []) with
                  | thrown m => rw [h6] at htry; simp [FetchResult.bind] at htry
                  | ok gameEngines =>
                    rw [h6] at htry
                    simp only [FetchResult.bind] at htry
                    cases h7 : getInvolvedCompanies svc (g.involved_companies.getD []) with
                    | thrown m => rw [h7] at htry; simp [FetchResult.bind] at htry
                    | ok involvedCompanies =>
                      rw [h7] at htry
                      simp only [FetchResult.bind] at htry
                      cases h8 : companiesChain svc g with
                      | thrown m => rw [h8] at htry; simp [FetchResult.bind] at htry
                      | ok companies =>
                        rw [h8] at htry
                        simp only [FetchResult.bind, FetchResult.ok.injEq,
                          Option.some.injEq] at htry
                        subst htry
                        exact ⟨rest, rfl, h1, h2, h3, h4, h5, h6, h7, h8⟩

/-- C9: resolving a game whose base record does not exist yields nothing
rather than an error; a raised sub-fetch of any of the eight dispatched
relational lookups makes the whole resolution yield nothing; and any
returned record is fully enriched, every relation list being exactly the
corresponding sub-fetch response (no partial enrichment). -/
theorem getExpandedGameData_failure_containment (svc : IGDBService) (gameId : ℕ) :
    (svc.games [gameId] = .ok [] → getExpandedGameData svc gameId = none) ∧
    (∀ g rest, svc.games [gameId] = .ok (g :: rest) →
      ((∃ m, getGenres svc (g.genres.getD []) = .thrown m) ∨
       (∃ m, getPlatforms svc (g.platforms.getD []) = .thrown m) ∨
       (∃ m, getGameModes svc (g.game_modes.getD []) = .thrown m) ∨
       (∃ m, getThemes svc (g.themes.getD []) = .thrown m) ∨
       (∃ m, getPlayerPerspectives svc (g.player_perspectives.getD []) = .thrown m) ∨
       (∃ m, getGameEngines svc (g.game_engines.getD []) = .thrown m) ∨
       (∃ m, getInvolvedCompanies svc (g.involved_companies.getD []) = .thrown m) ∨
       (∃ m, companiesChain svc g = .thrown m)) →
      getExpandedGameData svc gameId = none) ∧
    (∀ d, getExpandedGameData svc gameId = some d →
      ∃ rest, svc.games [gameId] = .ok (d.game :: rest) ∧
        getGenres svc (d.game.genres.getD []) = .ok d.genres ∧
        getPlatforms svc (d.game.platforms.getD []) = .ok d.platforms ∧
        getGameModes svc (d.game.game_modes.getD []) = .ok d.gameModes ∧
        getThemes svc (d.game.themes.getD []) = .ok d.themes ∧
        getPlayerPerspectives svc (d.game.player_perspectives.getD []) =
          .ok d.playerPerspectives ∧
        getGameEngines svc (d.game.game_engines.getD []) = .ok d.gameEngines ∧
        getInvolvedCompanies svc (d.game.involved_companies.getD []) =
          .ok d.involvedCompanies ∧
        companiesChain svc d.game = .ok d.companies) := by
  refine ⟨?_, ?_, fun d => getExpandedGameData_some_inversion svc gameId d⟩
  · intro h
    simp [getExpandedGameData, getExpandedGameDataTry, getGames, h, FetchResult.bind]
  · intro g rest hg hfail
    cases hres : getExpandedGameData svc gameId with
    | none => rfl
    | some d =>
      exfalso
      obtain ⟨rest2, hg2, h1, h2, h3, h4, h5, h6, h7, h8⟩ :=
        getExpandedGameData_some_inversion svc gameId d hres
      have hgg : g = d.game := by
        rw [hg] at hg2
        simp only [FetchResult.ok.injEq, List.cons.injEq] at hg2
        exact hg2.1
      rcases hfail with ⟨m, hm⟩ | ⟨m, hm⟩ | ⟨m, hm⟩ | ⟨m, hm⟩ |
        ⟨m, hm⟩ | ⟨m, hm⟩ | ⟨m, hm⟩ | ⟨m, hm⟩
      · rw [hgg] at hm; exact FetchResult.noConfusion (hm.symm.trans h1)
      · rw [hgg] at hm; exact FetchResult.noConfusion (hm.symm.trans h2)
      · rw [hgg] at hm; exact FetchResult.noConfusion (hm.symm.trans h3)
      · rw [hgg] at hm; exact FetchResult.noConfusion (hm.symm.trans h4)
      · rw [hgg] at hm; exact FetchResult.noConfusion (hm.symm.trans h5)
      · rw [hgg] at hm; exact FetchResult.noConfusion (hm.symm.trans h6)
      · rw [hgg] at hm; exact FetchResult.noConfusion (hm.symm.trans h7)
      · rw [hgg] at hm; exact FetchResult.noConfusion (hm.symm.trans h8)

/-- Base game record used by the C9 witness, with one genre reference. -/
def wGame9 : IGDBGame := { id := 7, name := "gamma", genres := some [3] }

/-- Service whose game query returns an empty array. -/
def wSvcEmpty : IGDBService :=
  { search := fun _ _ => .ok [], games := fun _ => .ok [], genres := fun _ => .ok [],
    platforms := fun _ => .ok [], gameModes := fun _ => .ok [], themes := fun _ => .ok [],
    playerPerspectives := fun _ => .ok [], gameEngines := fun _ => .ok [],
    companies := fun _ => .ok [], involvedCompanies := fun _ => .ok [] }

/-- Service whose genre sub-fetch raises while the base game exists. -/
def wSvcThrow : IGDBService :=
  { wSvcEmpty with
    games := fun _ => .ok [wGame9],
    genres := fun _ => .thrown "network down" }

/-- C9 witness: a missing base record resolves to nothing, and a raised
genre sub-fetch makes the whole resolution yield nothing. -/
theorem getExpandedGameData_failure_containment_witness :
    getExpandedGameData wSvcEmpty 7 = none ∧ getExpandedGameData wSvcThrow 7 = none := by
  constructor
  · exact (getExpandedGameData_failure_containment wSvcEmpty 7).1 rfl
  · exact (getExpandedGameData_failure_containment wSvcThrow 7).2.1 wGame9 [] rfl
      (Or.inl ⟨"network down", rfl⟩)

/- ----------------------------------------------------------------
Batch orchestration (TemplateGenerator, src/unnamed/part_000)
---------------------------------------------------------------- -/

/-- One row of the input catalog (`GameCSVEntry`). -/
structure GameCSVEntry where
  name : String
  status : String
  platform : String
  notes : Option String := none
deriving DecidableEq

/-- One row of the follow-up report (`UnprocessedGame`). -/
structure UnprocessedGame where
  name : String
  status : String
  platform : String
  notes : Option String
  reason : String
deriving DecidableEq

/-- `TemplateData`.  The release date keeps the epoch timestamp of the
game record; its ISO rendering belongs to the out-of-scope markdown
formatting. -/
structure TemplateData where
  title : String
  status : String
  platform : String
  genres : List String
  gameModes : List String
  themes : List String
  playerPerspectives : List String
  gameEngines : List String
  developers : List String
  publishers : List String
  releaseDate : Option ℤ
  summary : Option String
  storyline : Option String
  notes : Option String
deriving DecidableEq

/-- The involved-companies loop of `mapToTemplateData`: for each
involvement record, look its company up by id and append the company name
to the developer list and/or the publisher list according to the flags. -/
def extractDevPub : List IGDBInvolvedCompany → List IGDBCompany →
    List String × List String
  | [], _ => ([], [])
  | ic :: rest, companies =>
    let others := extractDevPub rest companies
    match companies.find? (fun c => c.id == ic.company) with
    | some company =>
        ((if ic.developer then company.name :: others.1 else others.1),
         (if ic.publisher then company.name :: others.2 else others.2))
    | none => others

/-- `TemplateGenerator.mapToTemplateData`. -/
def mapToTemplateData (csvGame : GameCSVEntry) (expandedData : ExpandedGameData) :
    TemplateData :=
  let game := expandedData.game
  let devpub := extractDevPub expandedData.involvedCompanies expandedData.companies
  { title := game.name
    status := csvGame.status
    platform := normalizePlatform csvGame.platform
    genres := expandedData.genres.map (fun g => g.name)
    gameModes := expandedData.gameModes.map (fun gm => gm.name)
    themes := expandedData.themes.map (fun t => t.name)
    playerPerspectives := expandedData.playerPerspectives.map (fun pp => pp.name)
    gameEngines := expandedData.gameEngines.map (fun ge => ge.name)
    developers := devpub.1
    publishers := devpub.2
    releaseDate := game.first_release_date
    summary := game.summary
    storyline := game.storyline
    notes := csvGame.notes }

/-- `TemplateGenerator.generateTemplateData`: search (limit 5), reject an
empty result list, pick the best match, resolve it, and map; its own
catch turns any raised step into a null result, so the caller never sees
an exception from this stage. -/
def generateTemplateData (svc : IGDBService) (csvGame : GameCSVEntry) :
    Option TemplateData :=
  match svc.search csvGame.name 5 with
  | .thrown _ => none
  | .ok searchResults =>
    if searchResults.length = 0 then none
    else
      match findBestGameMatch csvGame.name searchResults with
      | none => none
      | some bestMatch =>
        match getExpandedGameData svc bestMatch.id with
        | none => none
        | some expandedData => some (mapToTemplateData csvGame expandedData)

/-- One catalog entry together with the behaviour the environment exhibits
while the batch processes it: the service responses, the outcome of the
markdown file write, and the `Math.random()` sample of the pacing delay. -/
structure BatchEntry where
  game : GameCSVEntry
  svc : IGDBService
  writeResult : FetchResult Unit
  rand : ℚ

/-- `TemplateGenerator.randomDelay`:
`Math.floor(Math.random() * (maxMs - minMs + 1)) + minMs` milliseconds. -/
def delayMs (minSeconds maxSeconds : ℕ) (r : ℚ) : ℤ :=
  ⌊r * (((maxSeconds : ℤ) * 1000 - (minSeconds : ℤ) * 1000 + 1 : ℤ) : ℚ)⌋ +
    (minSeconds : ℤ) * 1000

/-- Mutable state of `generateAllGameTemplates`: the success counter, the
`failedGames` accumulator, the follow-up report rows, and the trace of
awaited pacing delays. -/
structure RunState where
  processedCount : ℕ
  failedGames : List (String × String)
  unprocessedGames : List UnprocessedGame
  delays : List ℤ
deriving DecidableEq

/-- A follow-up report row for one entry. -/
def mkUnprocessedRow (g : GameCSVEntry) (reason : String) : UnprocessedGame :=
  { name := g.name, status := g.status, platform := g.platform, notes := g.notes,
    reason := reason }

/-- The loop body of `generateAllGameTemplates` for one entry: on resolved
data, write the file (a raised write lands in the catch block, recording
the entry in `failedGames` and the report); on missing data, record an
unmatched report row; the pacing delay runs inside the `try` after the
success or unmatched branch, only when the entry is not the last, and is
skipped when the entry raised. -/
def processOne (e : BatchEntry) (isLast : Bool) (st : RunState) : RunState :=
  match generateTemplateData e.svc e.game with
  | some _templateData =>
    match e.writeResult with
    | .ok _ =>
      let st1 := { st with processedCount := st.processedCount + 1 }
      if isLast then st1
      else { st1 with delays := st1.delays ++ [delayMs 5 30 e.rand] }
    | .thrown msg =>
      { st with
        failedGames := st.failedGames ++ [(e.game.name, msg)],
        unprocessedGames := st.unprocessedGames ++
          [mkUnprocessedRow e.game ("Error: " ++ msg)] }
  | none =>
    let st1 := { st with
      unprocessedGames := st.unprocessedGames ++
        [mkUnprocessedRow e.game "No IGDB data found"] }
    if isLast then st1
    else { st1 with delays := st1.delays ++ [delayMs 5 30 e.rand] }

/-- The entry loop of `generateAllGameTemplates`, processing entries
strictly in input order; an entry is last when no entry follows it. -/
def runBatchAux : List BatchEntry → RunState → RunState
  | [], st => st
  | e :: rest, st => runBatchAux rest (processOne e rest.isEmpty st)

/-- `TemplateGenerator.generateAllGameTemplates` over parsed entries,
starting from the empty accumulators. -/
def generateAllGameTemplates (entries : List BatchEntry) : RunState :=
  runBatchAux entries
    { processedCount := 0, failedGames := [], unprocessedGames := [], delays := [] }

/-- Terminal classification of one entry (`ProcessingOutcome` of the spec). -/
inductive Outcome where
  | succeeded
  | unmatched (reason : String)
  | failed (reason : String)
deriving DecidableEq

/-- The outcome an entry receives from the loop body: resolved and written
is a success; a raised write is a failure carrying the message; missing
data is unmatched. -/
def entryOutcome (e : BatchEntry) : Outcome :=
  match generateTemplateData e.svc e.game with
  | some _ =>
    match e.writeResult with
    | .ok _ => .succeeded
    | .thrown msg => .failed msg
  | none => .unmatched "No IGDB data found"

/-- Outcomes of a batch, in input order. -/
def outcomesOf (entries : List BatchEntry) : List Outcome := entries.map entryOutcome

/-- The report row an entry contributes, if any. -/
def rowOf (e : BatchEntry) : Option UnprocessedGame :=
  match entryOutcome e with
  | .succeeded => none
  | .unmatched r => some (mkUnprocessedRow e.game r)
  | .failed msg => some (mkUnprocessedRow e.game ("Error: " ++ msg))

/-- Report rows of a batch, in input order. -/
def rowsOf (entries : List BatchEntry) : List UnprocessedGame := entries.filterMap rowOf

/-- The `failedGames` record an entry contributes, if any. -/
def failedRecordOf (e : BatchEntry) : Option (String × String) :=
  match entryOutcome e with
  | .failed msg => some (e.game.name, msg)
  | _ => none

/-- `failedGames` content of a batch. -/
def failedOf (entries : List BatchEntry) : List (String × String) :=
  entries.filterMap failedRecordOf

/-- Number of successfully processed entries. -/
def countSucceeded (entries : List BatchEntry) : ℕ :=
  entries.countP (fun e => entryOutcome e == Outcome.succeeded)

/-- Whether the entry raises at the per-entry boundary (catch block). -/
def throwsAtBoundary (e : BatchEntry) : Bool :=
  match entryOutcome e with
  | .failed _ => true
  | _ => false

/-- The pacing delays of a batch: one for every non-final entry that does
not raise at the boundary. -/
def delaysOf (entries : List BatchEntry) : List ℤ :=
  (entries.dropLast.filter (fun e => !(throwsAtBoundary e))).map
    (fun e => delayMs 5 30 e.rand)

/-- Report rows of a batch, unfolded one entry. -/
theorem rowsOf_cons (e : BatchEntry) (l : List BatchEntry) :
    rowsOf (e :: l) = (rowOf e).toList ++ rowsOf l := by
  cases h : rowOf e <;> simp [rowsOf, List.filterMap_cons, h]

/-- Failure records of a batch, unfolded one entry. -/
theorem failedOf_cons (e : BatchEntry) (l : List BatchEntry) :
    failedOf (e :: l) = (failedRecordOf e).toList ++ failedOf l := by
  cases h : failedRecordOf e <;> simp [failedOf, List.filterMap_cons, h]

/-- Success count of a batch, unfolded one entry. -/
theorem countSucceeded_cons (e : BatchEntry) (l : List BatchEntry) :
    countSucceeded (e :: l) =
      countSucceeded l + (if entryOutcome e = Outcome.succeeded then 1 else 0) := by
  simp [countSucceeded, List.countP_cons]

/-- A single entry has no pacing delay. -/
theorem delaysOf_single (e : BatchEntry) : delaysOf [e] = [] := rfl

/-- Pacing delays of a batch of at least two entries, unfolded one entry. -/
theorem delaysOf_cons_cons (e f : BatchEntry) (l : List BatchEntry) :
    delaysOf (e :: f :: l) =
      (if throwsAtBoundary e then [] else [delayMs 5 30 e.rand]) ++ delaysOf (f :: l) := by
  cases h : throwsAtBoundary e <;> simp [delaysOf, List.dropLast, List.filter_cons, h]

/-- The loop of `generateAllGameTemplates` from an arbitrary intermediate
state: each entry contributes its outcome-determined success increment,
failure record, report row and pacing delay, in input order. -/
theorem runBatchAux_spec (entries : List BatchEntry) (st : RunState) :
    runBatchAux entries st =
      { processedCount := st.processedCount + countSucceeded entries,
        failedGames := st.failedGames ++ failedOf entries,
        unprocessedGames := st.unprocessedGames ++ rowsOf entries,
        delays := st.delays ++ delaysOf entries } := by
  induction entries generalizing st with
  | nil =>
      simp [runBatchAux, countSucceeded, failedOf, rowsOf, delaysOf]
  | cons e rest ih =>
      have hstep : runBatchAux (e :: rest) st =
          runBatchAux rest (processOne e rest.isEmpty st) := rfl
      rw [hstep, ih]
      cases hgen : generateTemplateData e.svc e.game with
      | none =>
          have ho : entryOutcome e = Outcome.unmatched "No IGDB data found" := by
            simp [entryOutcome, hgen]
          cases rest with
          | nil =>
              simp [processOne, hgen, countSucceeded_cons, rowsOf_cons, failedOf_cons,
                delaysOf_single, ho, rowOf, failedRecordOf, countSucceeded, rowsOf,
                failedOf, delaysOf]
          | cons f fs =>
              simp [processOne, hgen, countSucceeded_cons, rowsOf_cons, failedOf_cons,
                delaysOf_cons_cons, ho, rowOf, failedRecordOf, throwsAtBoundary,
                List.append_assoc]
      | some td =>
          cases hw : e.writeResult with
          | ok u =>
              have ho : entryOutcome e = Outcome.succeeded := by
                simp [entryOutcome, hgen, hw]
              cases rest with
              | nil =>
                  simp [processOne, hgen, hw, countSucceeded_cons, rowsOf_cons,
                    failedOf_cons, delaysOf_single, ho, rowOf, failedRecordOf,
                    countSucceeded, rowsOf, failedOf, delaysOf]
              | cons f fs =>
                  simp [processOne, hgen, hw, countSucceeded_cons, rowsOf_cons,
                    failedOf_cons, delaysOf_cons_cons, ho, rowOf, failedRecordOf,
                    throwsAtBoundary, List.append_assoc]
                  omega
          | thrown msg =>
              have ho : entryOutcome e = Outcome.failed msg := by
                simp [entryOutcome, hgen, hw]
              cases rest with
              | nil =>
                  simp [processOne, hgen, hw, countSucceeded_cons, rowsOf_cons,
                    failedOf_cons, delaysOf_single, ho, rowOf, failedRecordOf,
                    countSucceeded, rowsOf, failedOf, delaysOf]
              | cons f fs =>
                  simp [processOne, hgen, hw, countSucceeded_cons, rowsOf_cons,
                    failedOf_cons, delaysOf_cons_cons, ho, rowOf, failedRecordOf,
                    throwsAtBoundary, List.append_assoc]

/-- C5 amended: the run is a total function of the entries (it always
completes with summary counters); an exception that reaches the per-entry
boundary is recorded as a failure carrying the error message and does not
disturb any other entry; the follow-up report holds exactly one row per
entry that is not a success, in input order (exceptions caught inside the
data-generation stage surface as unmatched rows instead of failures). -/
theorem generateAllGameTemplates_containment (entries : List BatchEntry) :
    (generateAllGameTemplates entries).unprocessedGames = rowsOf entries ∧
    (generateAllGameTemplates entries).processedCount = countSucceeded entries ∧
    (generateAllGameTemplates entries).failedGames = failedOf entries ∧
    (∀ e ∈ entries, ∀ td msg, generateTemplateData e.svc e.game = some td →
      e.writeResult = .thrown msg → entryOutcome e = .failed msg) ∧
    (∀ e ∈ entries,
      (entryOutcome e ≠ Outcome.succeeded ↔ (rowOf e).isSome = true)) := by
  refine ⟨?_, ?_, ?_, ?_, ?_⟩
  · rw [generateAllGameTemplates, runBatchAux_spec]; simp [rowsOf]
  · rw [generateAllGameTemplates, runBatchAux_spec]; simp
  · rw [generateAllGameTemplates, runBatchAux_spec]; simp [failedOf]
  · intro e _ td msg hgen hw
    simp [entryOutcome, hgen, hw]
  · intro e _
    cases ho : entryOutcome e <;> simp [rowOf, ho]

/-- Base game found by the every-entry-fails witness service. -/
def wGameBeta : IGDBGame := { id := 8, name := "beta" }

/-- Service that finds and fully resolves `wGameBeta`. -/
def wSvcBeta : IGDBService :=
  { wSvcEmpty with
    search := fun _ _ => .ok [wGameBeta],
    games := fun _ => .ok [wGameBeta] }

/-- Entry whose markdown write raises at the entry boundary. -/
def wEntryWriteFail : BatchEntry :=
  { game := { name := "beta", status := "Completed", platform := "pc", notes := none },
    svc := wSvcBeta, writeResult := .thrown "disk full", rand := 1/2 }

/-- Entry for which the search returns no candidates. -/
def wEntryNoData : BatchEntry :=
  { game := { name := "p2", status := "Planned", platform := "vr", notes := none },
    svc := wSvcEmpty, writeResult := .ok (), rand := 1/2 }

/-- C5 witness: a batch in which every entry fails still completes, with a
zero success count, one failure row with the error message and one
unmatched row. -/
theorem generateAllGameTemplates_containment_witness :
    (generateAllGameTemplates [wEntryWriteFail, wEntryNoData]).unprocessedGames =
      [mkUnprocessedRow wEntryWriteFail.game "Error: disk full",
       mkUnprocessedRow wEntryNoData.game "No IGDB data found"] ∧
    (generateAllGameTemplates [wEntryWriteFail, wEntryNoData]).processedCount = 0 ∧
    entryOutcome wEntryWriteFail = Outcome.failed "disk full" := by
  have h := generateAllGameTemplates_containment [wEntryWriteFail, wEntryNoData]
  refine ⟨?_, ?_, ?_⟩
  · rw [h.1]; rfl
  · rw [h.2.1]; rfl
  · exact h.2.2.2.1 wEntryWriteFail (List.mem_cons_self _ _) _ "disk full" rfl rfl

/-- C4 amended: when exactly one entry of the batch raises during
relational resolution and every other entry completes its write, the run
records one Unmatched outcome (not Failed: the exception is caught inside
the data-generation stage and downgraded to the no-data case) for that
entry, Succeeded/Unmatched outcomes for the other entries, and the
follow-up report holds exactly one row for that entry, in position. -/
theorem generateAllGameTemplates_resolution_throw (pre post : List BatchEntry)
    (ek : BatchEntry) (games : List IGDBGame) (g : IGDBGame) (msg : String)
    (hsearch : ek.svc.search ek.game.name 5 = .ok games)
    (hne : games ≠ [])
    (hmatch : findBestGameMatch ek.game.name games = some g)
    (hthrow : getExpandedGameDataTry ek.svc g.id = .thrown msg)
    (hothers : ∀ e ∈ pre ++ post, e.writeResult = FetchResult.ok ()) :
    entryOutcome ek = Outcome.unmatched "No IGDB data found" ∧
    outcomesOf (pre ++ ek :: post) =
      outcomesOf pre ++ Outcome.unmatched "No IGDB data found" :: outcomesOf post ∧
    (∀ o ∈ outcomesOf pre ++ outcomesOf post,
      o = Outcome.succeeded ∨ o = Outcome.unmatched "No IGDB data found") ∧
    (generateAllGameTemplates (pre ++ ek :: post)).unprocessedGames =
      rowsOf pre ++ mkUnprocessedRow ek.game "No IGDB data found" :: rowsOf post := by
  have hexp : getExpandedGameData ek.svc g.id = none := by
    unfold getExpandedGameData
    rw [hthrow]
  have hgen : generateTemplateData ek.svc ek.game = none := by
    have hlen : ¬ (games.length = 0) := fun h => hne (List.length_eq_zero.mp h)
    simp only [generateTemplateData, hsearch, if_neg hlen, hmatch, hexp]
  have ho : entryOutcome ek = Outcome.unmatched "No IGDB data found" := by
    simp [entryOutcome, hgen]
  refine ⟨ho, ?_, ?_, ?_⟩
  · simp [outcomesOf, ho]
  · intro o hoo
    have hmem : o ∈ outcomesOf (pre ++ post) := by
      simpa [outcomesOf] using hoo
    obtain ⟨e, he, hoe⟩ := List.mem_map.mp hmem
    cases hg2 : generateTemplateData e.svc e.game with
    | some td =>
        left
        rw [← hoe]
        simp [entryOutcome, hg2, hothers e he]
    | none =>
        right
        rw [← hoe]
        simp [entryOutcome, hg2]
  · have hrow : rowOf ek = some (mkUnprocessedRow ek.game "No IGDB data found") := by
      simp [rowOf, ho]
    rw [generateAllGameTemplates, runBatchAux_spec]
    simp [rowsOf, List.filterMap_append, List.filterMap_cons, hrow]

/-- Base game matched by the resolution-throw entry; it references one
genre so that the genre sub-fetch is dispatched. -/
def cGameRes : IGDBGame := { id := 42, name := "alpha", genres := some [1] }

/-- Service that finds `cGameRes` but whose genre sub-fetch raises. -/
def cSvcRes : IGDBService :=
  { wSvcEmpty with
    search := fun _ _ => .ok [cGameRes],
    games := fun _ => .ok [cGameRes],
    genres := fun _ => .thrown "boom" }

/-- Entry whose relational resolution raises. -/
def cEntryRes : BatchEntry :=
  { game := { name := "alpha", status := "Completed", platform := "pc", notes := none },
    svc := cSvcRes, writeResult := .ok (), rand := 1/2 }

/-- C4 counterexample: an entry that raises during relational resolution
yields an Unmatched outcome and zero Failed outcomes, not the one Failed
outcome the claim requires. -/
theorem generateAllGameTemplates_resolution_throw_counterexample :
    outcomesOf [cEntryRes] = [Outcome.unmatched "No IGDB data found"] ∧
    (outcomesOf [cEntryRes]).countP
      (fun o => match o with | Outcome.failed _ => true | _ => false) = 0 := by
  constructor <;> rfl

/-- C4 witness: the amended statement at the concrete one-entry batch. -/
theorem generateAllGameTemplates_resolution_throw_witness :
    entryOutcome cEntryRes = Outcome.unmatched "No IGDB data found" ∧
    (generateAllGameTemplates [cEntryRes]).unprocessedGames =
      [mkUnprocessedRow cEntryRes.game "No IGDB data found"] := by
  have h := generateAllGameTemplates_resolution_throw [] [] cEntryRes [cGameRes] cGameRes
    "boom" rfl (by simp) (by decide) rfl (by simp)
  exact ⟨h.1, by simpa using h.2.2.2⟩

/-- The sampled delay is within the configured bound, inclusive, whenever
the random sample lies in the unit interval. -/
theorem delayMs_bounds (minSeconds maxSeconds : ℕ) (r : ℚ)
    (hmm : minSeconds ≤ maxSeconds) (h0 : 0 ≤ r) (h1 : r < 1) :
    (minSeconds : ℤ) * 1000 ≤ delayMs minSeconds maxSeconds r ∧
    delayMs minSeconds maxSeconds r ≤ (maxSeconds : ℤ) * 1000 := by
  unfold delayMs
  set c : ℤ := (maxSeconds : ℤ) * 1000 - (minSeconds : ℤ) * 1000 + 1 with hc
  have hmz : (minSeconds : ℤ) ≤ (maxSeconds : ℤ) := by exact_mod_cast hmm
  have hcpos : 0 < c := by omega
  constructor
  · have hfl : 0 ≤ ⌊r * (c : ℚ)⌋ :=
      Int.floor_nonneg.mpr (mul_nonneg h0 (by exact_mod_cast hcpos.le))
    omega
  · have hlt : ⌊r * (c : ℚ)⌋ < c := by
      rw [Int.floor_lt]
      calc r * (c : ℚ) < 1 * (c : ℚ) :=
            mul_lt_mul_of_pos_right h1 (by exact_mod_cast hcpos)
        _ = (c : ℚ) := one_mul _
    omega

/-- C6 amended: the awaited delays of a run are exactly one sampled delay
for every non-final entry that does not raise at the per-entry boundary
(an entry that raises skips its delay); every awaited delay lies within
the configured 5 to 30 second bound, inclusive, when the random samples
lie in the unit interval; and no delay follows the final entry, so a run
of N entries awaits at most N - 1 delays. -/
theorem generateAllGameTemplates_pacing (entries : List BatchEntry)
    (hr : ∀ e ∈ entries, 0 ≤ e.rand ∧ e.rand < 1) :
    (generateAllGameTemplates entries).delays = delaysOf entries ∧
    (∀ d ∈ (generateAllGameTemplates entries).delays, 5000 ≤ d ∧ d ≤ 30000) ∧
    (generateAllGameTemplates entries).delays.length ≤ entries.length - 1 := by
  have hdel : (generateAllGameTemplates entries).delays = delaysOf entries := by
    rw [generateAllGameTemplates, runBatchAux_spec]; simp
  refine ⟨hdel, ?_, ?_⟩
  · intro d hd
    rw [hdel] at hd
    unfold delaysOf at hd
    obtain ⟨e, he, rfl⟩ := List.mem_map.mp hd
    have hee : e ∈ entries :=
      List.dropLast_subset entries (List.mem_of_mem_filter he)
    obtain ⟨hr0, hr1⟩ := hr e hee
    have hb := delayMs_bounds 5 30 e.rand (by norm_num) hr0 hr1
    norm_num at hb
    exact hb
  · rw [hdel]
    unfold delaysOf
    rw [List.length_map]
    exact le_trans (List.length_filter_le _ _) (by rw [List.length_dropLast])

/-- C6 counterexample: in a two-entry run whose first entry raises at the
boundary, no delay at all is awaited, although the first entry is not the
last. -/
theorem generateAllGameTemplates_pacing_counterexample :
    (generateAllGameTemplates [wEntryWriteFail, wEntryNoData]).delays = [] := rfl

/-- Non-raising entry used by the pacing witness. -/
def wEntryPace : BatchEntry :=
  { game := { name := "p1", status := "Planned", platform := "pc", notes := none },
    svc := wSvcEmpty, writeResult := .ok (), rand := 1/2 }

/-- C6 witness: a two-entry run awaits exactly one delay, after the first
entry, and it lies within the 5 to 30 second bound. -/
theorem generateAllGameTemplates_pacing_witness :
    (generateAllGameTemplates [wEntryPace, wEntryNoData]).delays = [17500] ∧
    (5000 : ℤ) ≤ 17500 ∧ (17500 : ℤ) ≤ 30000 := by
  have h := generateAllGameTemplates_pacing [wEntryPace, wEntryNoData]
    (by intro e he; fin_cases he <;> constructor <;> norm_num [wEntryPace, wEntryNoData])
  have h17 : delayMs 5 30 (1/2 : ℚ) = 17500 := by
    unfold delayMs
    norm_num
  refine ⟨?_, by norm_num, by norm_num⟩
  rw [h.1]
  have hval : delaysOf [wEntryPace, wEntryNoData] = [delayMs 5 30 (1/2 : ℚ)] := rfl
  rw [hval, h17]

/-- C5 counterexample: an entry whose genre sub-fetch raises the message
"boom" while it is processed ends with an empty `failedGames` accumulator
and an unmatched report row without the message, so the raised exception
is not recorded as a Failed outcome carrying the error message. -/
theorem generateAllGameTemplates_containment_counterexample :
    (generateAllGameTemplates [cEntryRes]).failedGames = [] ∧
    (generateAllGameTemplates [cEntryRes]).unprocessedGames =
      [mkUnprocessedRow cEntryRes.game "No IGDB data found"] := by
  constructor <;> rfl
